import Mathlib

/-!
Shallow embedding of the gomp ASCII arena shooter server (src/main.go).

The Go server keeps a player map, a bullet map and a grid; every operation
runs under one lock, so each handler body is modelled as a pure function on
an explicit state.  Go `time.Time` / `time.Duration` values are modelled as
`Int` nanoseconds (`time.Now()` becomes an explicit `now` argument), the Go
maps become association lists keyed by the entity id (iteration order is the
list order), and the random map iteration of `range` is modelled as the list
order.  All definitions are executable.
-/

namespace Gomp

/-- `WORLD_WIDTH` constant from main.go. -/
def WORLD_WIDTH : Int := 150

/-- `WORLD_HEIGHT` constant from main.go. -/
def WORLD_HEIGHT : Int := 40

/-- `BULLET_SPEED = 100 * time.Millisecond`, in nanoseconds. -/
def BULLET_SPEED : Int := 100000000

/-- `SHOOT_COOLDOWN = 500 * time.Millisecond`, in nanoseconds. -/
def SHOOT_COOLDOWN : Int := 500000000

/-- `RESPAWN_TIME = 3 * time.Second`, in nanoseconds. -/
def RESPAWN_TIME : Int := 3000000000

/-- The `Player` struct from main.go.  Timestamps are `Int` nanoseconds;
the Go zero `time.Time` is modelled as `0`. -/
structure Player where
  id : String
  name : String
  x : Int
  y : Int
  character : String
  kills : Nat
  deaths : Nat
  lastSeen : Int
  dead : Bool
  respawnAt : Int
  lastShot : Int
  isSpectator : Bool
deriving Repr, DecidableEq

/-- The `Bullet` struct from main.go. -/
structure Bullet where
  id : String
  x : Int
  y : Int
  dirX : Int
  dirY : Int
  ownerID : String
  character : String
deriving Repr, DecidableEq

/-- Lookup in the player map `gs.players[playerID]` (first entry with the id). -/
def findPlayer (ps : List Player) (pid : String) : Option Player :=
  ps.find? (fun p => p.id == pid)

/-- In-place mutation of the player with the given id (Go mutates through the
map's pointer); every entry carrying the id is rewritten by `f`. -/
def setPlayer (ps : List Player) (pid : String) (f : Player → Player) : List Player :=
  ps.map (fun p => if p.id == pid then f p else p)

/-- Membership test on the player map (`_, exists := gs.players[id]`). -/
def hasPlayer (ps : List Player) (pid : String) : Bool :=
  ps.any (fun p => p.id == pid)

/-- Go map store `gs.players[player.ID] = player`: replaces the entry with the
same key if present, otherwise appends. -/
def insertPlayer (ps : List Player) (np : Player) : List Player :=
  if hasPlayer ps np.id then ps.map (fun p => if p.id == np.id then np else p)
  else ps ++ [np]

/-- Go map delete `delete(gs.players, id)`. -/
def removePlayer (ps : List Player) (pid : String) : List Player :=
  ps.filter (fun p => p.id != pid)

/-- Lookup in the bullet map `gs.world.Bullets[bulletID]`. -/
def findBullet (bs : List Bullet) (bid : String) : Option Bullet :=
  bs.find? (fun b => b.id == bid)

/-- Store the mutated bullet back under its id. -/
def setBullet (bs : List Bullet) (bid : String) (nb : Bullet) : List Bullet :=
  bs.map (fun b => if b.id == bid then nb else b)

/-- Membership test on the bullet map. -/
def hasBullet (bs : List Bullet) (bid : String) : Bool :=
  bs.any (fun b => b.id == bid)

/-- Go map store `gs.world.Bullets[bullet.ID] = bullet`. -/
def insertBullet (bs : List Bullet) (nb : Bullet) : List Bullet :=
  if hasBullet bs nb.id then bs.map (fun b => if b.id == nb.id then nb else b)
  else bs ++ [nb]

/-- Go map delete `delete(gs.world.Bullets, bulletID)`. -/
def removeBullet (bs : List Bullet) (bid : String) : List Bullet :=
  bs.filter (fun b => b.id != bid)

/-- The direction switch of `movePlayer`: the candidate cell, clamped by
`math.Max`/`math.Min` exactly as in the Go code (`none` for an unknown
direction, which hits the `default` branch). -/
def moveCandidate (p : Player) (direction : String) : Option (Int × Int) :=
  if direction == "up" then some (p.x, max 0 (p.y - 1))
  else if direction == "down" then some (p.x, min (WORLD_HEIGHT - 1) (p.y + 1))
  else if direction == "left" then some (max 0 (p.x - 1), p.y)
  else if direction == "right" then some (min (WORLD_WIDTH - 1) (p.x + 1), p.y)
  else none

/-- The collision scan of `movePlayer`: some other (`p.ID != playerID`),
non-dead player already occupies the candidate cell.  Note that the scan does
not exclude spectators. -/
def occupiedByOther (ps : List Player) (playerID : String) (nx ny : Int) : Bool :=
  ps.any (fun p => p.id != playerID && !p.dead && p.x == nx && p.y == ny)

/-- `(gs *GameServer) movePlayer(playerID, direction string) bool` from
main.go, as a pure function returning the Go result and the updated player
map.  `now` is the value of `time.Now()` stored into `LastSeen`. -/
def movePlayer (ps : List Player) (playerID direction : String) (now : Int) :
    Bool × List Player :=
  match findPlayer ps playerID with
  | none => (false, ps)
  | some player =>
    if player.dead || player.isSpectator then (false, ps)
    else
      match moveCandidate player direction with
      | none => (false, ps)
      | some c =>
        if occupiedByOther ps playerID c.1 c.2 then (false, ps)
        else
          (true, setPlayer ps playerID (fun q => { q with x := c.1, y := c.2, lastSeen := now }))

/-- The direction switch of `shootBullet`: the unit direction vector. -/
def shootDir (direction : String) : Option (Int × Int) :=
  if direction == "up" then some (0, -1)
  else if direction == "down" then some (0, 1)
  else if direction == "left" then some (-1, 0)
  else if direction == "right" then some (1, 0)
  else none

/-- `(gs *GameServer) shootBullet(playerID, direction string) bool` from
main.go.  `time.Since(player.LastShot)` is `now - lastShot`; the bullet id is
`"bullet_" + UnixNano`; on success `LastShot` is stamped with `now`. -/
def shootBullet (ps : List Player) (bs : List Bullet) (playerID direction : String)
    (now : Int) : Bool × List Player × List Bullet :=
  match findPlayer ps playerID with
  | none => (false, ps, bs)
  | some player =>
    if player.dead || player.isSpectator then (false, ps, bs)
    else if now - player.lastShot < SHOOT_COOLDOWN then (false, ps, bs)
    else
      match shootDir direction with
      | none => (false, ps, bs)
      | some d =>
        let bullet : Bullet :=
          { id := "bullet_" ++ toString now, x := player.x, y := player.y,
            dirX := d.1, dirY := d.2, ownerID := playerID, character := "*" }
        (true, setPlayer ps playerID (fun q => { q with lastShot := now }),
          insertBullet bs bullet)

/-- The out-of-bounds test of `moveBullet`:
`bullet.X < 0 || bullet.X >= WORLD_WIDTH || bullet.Y < 0 || bullet.Y >= WORLD_HEIGHT`. -/
def bulletGone (x y : Int) : Bool :=
  decide (x < 0) || decide (WORLD_WIDTH ≤ x) || decide (y < 0) || decide (WORLD_HEIGHT ≤ y)

/-- The hit scan of `moveBullet`: the first non-dead player standing on the
advanced bullet's cell who is not the bullet's owner.  The scan does not
exclude spectators. -/
def hitScan (ps : List Player) (b : Bullet) : Option Player :=
  ps.find? (fun p => !p.dead && p.x == b.x && p.y == b.y && p.id != b.ownerID)

/-- Result of one iteration of the `moveBullet` loop: whether the goroutine
returns (`stop`), and the updated maps. -/
structure TickResult where
  stop : Bool
  players : List Player
  bullets : List Bullet
deriving Repr, DecidableEq

/-- `bullet.X += bullet.DirX; bullet.Y += bullet.DirY` — the per-tick advance. -/
def advanceBullet (b : Bullet) : Bullet :=
  { b with x := b.x + b.dirX, y := b.y + b.dirY }

/-- The hit effect on the victim:
`player.Dead = true; player.Deaths++; player.RespawnAt = now + RESPAWN_TIME`. -/
def markDead (now : Int) (p : Player) : Player :=
  { p with dead := true, deaths := p.deaths + 1, respawnAt := now + RESPAWN_TIME }

/-- The hit effect on the shooter: `shooter.Kills++`. -/
def creditKill (p : Player) : Player := { p with kills := p.kills + 1 }

/-- One iteration of the `for` loop in `(gs *GameServer) moveBullet(bulletID)`:
re-resolve the bullet (stop silently if missing), advance it by its direction
vector, remove it when out of bounds, otherwise kill the first non-owner
non-dead player on the new cell (mark dead, bump deaths, set the respawn
timestamp, credit the shooter if still registered, remove the bullet) or keep
flying. -/
def moveBulletTick (ps : List Player) (bs : List Bullet) (bulletID : String)
    (now : Int) : TickResult :=
  match findBullet bs bulletID with
  | none => ⟨true, ps, bs⟩
  | some bullet =>
    if bulletGone (advanceBullet bullet).x (advanceBullet bullet).y then
      ⟨true, ps, removeBullet (setBullet bs bulletID (advanceBullet bullet)) bulletID⟩
    else
      match hitScan ps (advanceBullet bullet) with
      | some victim =>
        ⟨true,
          (if hasPlayer (setPlayer ps victim.id (markDead now)) bullet.ownerID then
            setPlayer (setPlayer ps victim.id (markDead now)) bullet.ownerID creditKill
          else setPlayer ps victim.id (markDead now)),
          removeBullet (setBullet bs bulletID (advanceBullet bullet)) bulletID⟩
      | none => ⟨false, ps, setBullet bs bulletID (advanceBullet bullet)⟩

/-- The occupancy scan of `respawnPlayer`: no non-dead player stands on the
candidate cell. -/
def respawnFree (ps : List Player) (x y : Int) : Bool :=
  !(ps.any (fun p => !p.dead && p.x == x && p.y == y))

/-- `(gs *GameServer) respawnPlayer(playerID)` (the part after the sleep):
up to 50 attempts, each derived from two `time.Now().UnixNano()` samples as
`x = t₁ % WORLD_WIDTH`, `y = t₂ % WORLD_HEIGHT`; `tries` carries those
samples.  On a free cell the player is placed there and revived; if all
attempts fail and the player is still dead, it is placed at the world center
regardless of occupancy. -/
def respawnPlayer (ps : List Player) (playerID : String) (tries : List (Int × Int)) :
    List Player :=
  match findPlayer ps playerID with
  | none => ps
  | some _ =>
    let spots := tries.map (fun t => (t.1 % WORLD_WIDTH, t.2 % WORLD_HEIGHT))
    match spots.find? (fun c => respawnFree ps c.1 c.2) with
    | some c => setPlayer ps playerID (fun p => { p with x := c.1, y := c.2, dead := false })
    | none => setPlayer ps playerID (fun p =>
        if p.dead then { p with x := WORLD_WIDTH / 2, y := WORLD_HEIGHT / 2, dead := false }
        else p)

/-- The player literal built by the `join` branch of `handleWebSocket`:
id `"p" + (UnixNano % 10000)`, world-center position, zeroed counters. -/
def newPlayer (name character : String) (spectator : Bool) (now : Int) : Player :=
  { id := "p" ++ toString (now % 10000), name := name,
    x := WORLD_WIDTH / 2, y := WORLD_HEIGHT / 2, character := character,
    kills := 0, deaths := 0, lastSeen := now, dead := false,
    respawnAt := 0, lastShot := 0, isSpectator := spectator }

/-- The `join` branch of `handleWebSocket` together with the registration in
`addClient`: the request is silently dropped when `len(joinData.Character) != 1`
(Go `len` is the byte length) — with no spectator exception — and otherwise the
new player is stored in the player map. -/
def joinPlayer (ps : List Player) (name character : String) (spectator : Bool)
    (now : Int) : List Player :=
  if character.utf8ByteSize != 1 then ps
  else insertPlayer ps (newPlayer name character spectator now)

/-- `removeClient`: the bound player is deleted from the player map. -/
def leaveGame (ps : List Player) (pid : String) : List Player :=
  ps.filter (fun p => p.id != pid)

/-- The mutating operations of the simulation engine; each carries the
`time.Now()` samples its Go counterpart reads. -/
inductive Op where
  | join (name character : String) (spectator : Bool) (now : Int)
  | move (pid direction : String) (now : Int)
  | shoot (pid direction : String) (now : Int)
  | tick (bulletID : String) (now : Int)
  | respawn (pid : String) (tries : List (Int × Int))
  | leave (pid : String)
deriving Repr, DecidableEq

/-- The state guarded by the server lock: player map and bullet map. -/
structure GameState where
  players : List Player
  bullets : List Bullet
deriving Repr, DecidableEq

/-- The empty server state at startup. -/
def initState : GameState := ⟨[], []⟩

/-- Apply one operation to the locked state. -/
def applyOp (s : GameState) : Op → GameState
  | .join n c sp t => ⟨joinPlayer s.players n c sp t, s.bullets⟩
  | .move pid dir t => ⟨(movePlayer s.players pid dir t).2, s.bullets⟩
  | .shoot pid dir t =>
    let r := shootBullet s.players s.bullets pid dir t
    ⟨r.2.1, r.2.2⟩
  | .tick bid t =>
    let r := moveBulletTick s.players s.bullets bid t
    ⟨r.players, r.bullets⟩
  | .respawn pid tries => ⟨respawnPlayer s.players pid tries, s.bullets⟩
  | .leave pid => ⟨leaveGame s.players pid, s.bullets⟩

/-- Run a sequence of operations. -/
def runOps (s : GameState) (ops : List Op) : GameState := ops.foldl applyOp s

/-! ## Rendering (`(gw *GameWorld) Render`)

The Go `Grid` buffer is a `[][]string`; it is modelled as a function from
coordinates to the cell string, with `gridSet` the pointwise store
`gw.Grid[y][x] = v`.  `Render` first clears every cell to `" "`, stamps the
bullets, stamps the players (so a player overwrites a co-located bullet), and
finally wraps the rows in the dash/pipe border. -/

/-- The cleared buffer: every cell holds `" "`. -/
def emptyGrid : Int → Int → String := fun _ _ => " "

/-- `gw.Grid[y][x] = v`. -/
def gridSet (g : Int → Int → String) (x y : Int) (v : String) : Int → Int → String :=
  fun a b => if a = x ∧ b = y then v else g a b

/-- The bullet stamping guard of `Render`:
`bullet.X >= 0 && bullet.X < gw.Width && bullet.Y >= 0 && bullet.Y < gw.Height`. -/
def bulletVisible (b : Bullet) : Bool :=
  decide (0 ≤ b.x) && decide (b.x < WORLD_WIDTH) && decide (0 ≤ b.y) && decide (b.y < WORLD_HEIGHT)

/-- The player stamping guard of `Render`:
`!player.Dead && player.X >= 0 && ...` — note there is no spectator check. -/
def playerVisible (p : Player) : Bool :=
  !p.dead && decide (0 ≤ p.x) && decide (p.x < WORLD_WIDTH)
    && decide (0 ≤ p.y) && decide (p.y < WORLD_HEIGHT)

/-- The bullet loop of `Render`. -/
def stampBullets (g : Int → Int → String) (bs : List Bullet) : Int → Int → String :=
  bs.foldl (fun g b => if bulletVisible b then gridSet g b.x b.y "*" else g) g

/-- The player loop of `Render` (runs after the bullet loop). -/
def stampPlayers (g : Int → Int → String) (ps : List Player) : Int → Int → String :=
  ps.foldl (fun g p => if playerVisible p then gridSet g p.x p.y p.character else g) g

/-- The fully stamped buffer of one `Render` call. -/
def renderGrid (ps : List Player) (bs : List Bullet) : Int → Int → String :=
  stampPlayers (stampBullets emptyGrid bs) ps

/-- One interior row's cells, read left to right. -/
def rowCells (g : Int → Int → String) (y : Int) : String :=
  String.join ((List.range WORLD_WIDTH.toNat).map (fun x => g (Int.ofNat x) y))

/-- One interior row: `"|"` + cells + `"|"`. -/
def rowText (g : Int → Int → String) (y : Int) : String :=
  "|" ++ rowCells g y ++ "|"

/-- The border row `"+" + strings.Repeat("-", gw.Width) + "+"`. -/
def borderText : String :=
  "+" ++ String.join (List.replicate WORLD_WIDTH.toNat "-") ++ "+"

/-- The lines written by `Render`, in order (each is written with a trailing
newline by the string builder). -/
def renderLines (ps : List Player) (bs : List Bullet) : List String :=
  borderText :: (List.range WORLD_HEIGHT.toNat).map
      (fun y => rowText (renderGrid ps bs) (Int.ofNat y)) ++ [borderText]

/-- `(gw *GameWorld) Render(players)` — the produced frame text. -/
def Render (ps : List Player) (bs : List Bullet) : String :=
  String.join ((renderLines ps bs).map (fun s => s ++ "\n"))

/-! ## Leaderboard (`(gs *GameServer) getLeaderboard`) -/

/-- The `sort.Slice` comparison closure of `getLeaderboard`: kills descending,
ties broken by deaths ascending. -/
def lbLess (a b : Player) : Bool :=
  if a.kills == b.kills then decide (a.deaths < b.deaths) else decide (a.kills > b.kills)

/-- The non-strict order induced by `lbLess`; a Go `sort.Slice` output is
sorted in the sense that no later element is `lbLess` than an earlier one. -/
def lbLe (a b : Player) : Bool := !lbLess b a

/-- The kill/death ratio value that `getLeaderboard` formats with `"%.2f"`:
`float64(kills)` when deaths is zero, else `float64(kills)/float64(deaths)`
(modelled exactly as a rational). -/
def kdrOf (p : Player) : ℚ :=
  if p.deaths > 0 then (p.kills : ℚ) / (p.deaths : ℚ) else (p.kills : ℚ)

/-- One leaderboard row as assembled by `getLeaderboard`. -/
structure LBEntry where
  rank : Nat
  name : String
  character : String
  kills : Nat
  deaths : Nat
  kdr : ℚ
deriving Repr, DecidableEq

/-- `(gs *GameServer) getLeaderboard()`: snapshot the players, sort them with
`lbLess`, and emit rows with 1-based ranks. -/
def getLeaderboard (ps : List Player) : List LBEntry :=
  let sorted := ps.mergeSort lbLe
  sorted.enum.map (fun ip =>
    { rank := ip.1 + 1, name := ip.2.name, character := ip.2.character,
      kills := ip.2.kills, deaths := ip.2.deaths, kdr := kdrOf ip.2 })

/-! ## Invariants -/

/-- A player that counts for the spec's occupancy invariant. -/
def aliveNonSpectator (p : Player) : Bool := !p.dead && !p.isSpectator

/-- Two players standing on the same cell. -/
def sameCell (p q : Player) : Bool := p.x == q.x && p.y == q.y

/-- Two alive, non-spectator players clashing on one cell. -/
def collides (p q : Player) : Bool :=
  aliveNonSpectator p && aliveNonSpectator q && sameCell p q

/-- No two alive, non-spectator players occupy the same cell. -/
abbrev noCollision (ps : List Player) : Prop :=
  List.Pairwise (fun p q => collides p q = false) ps

/-- Executable form of `noCollision`. -/
def noCollisionB : List Player → Bool
  | [] => true
  | p :: rest => rest.all (fun q => !collides p q) && noCollisionB rest

/-- All player-map entries carry distinct ids (a Go map key invariant). -/
abbrev uniqueIds (ps : List Player) : Prop :=
  List.Pairwise (fun p q => p.id ≠ q.id) ps

/-! ## List helper lemmas -/

theorem find?_map_id_pred {α : Type} (l : List α) (g : α → α) (pr : α → Bool)
    (hg : ∀ a, pr (g a) = pr a) :
    (l.map g).find? pr = (l.find? pr).map g := by
  induction l with
  | nil => rfl
  | cons a l ih =>
    simp only [List.map_cons, List.find?_cons, hg]
    cases h : pr a <;> simp [h, ih]

theorem any_map_id_pred {α : Type} (l : List α) (g : α → α) (pr : α → Bool)
    (hg : ∀ a, pr (g a) = pr a) :
    (l.map g).any pr = l.any pr := by
  induction l with
  | nil => rfl
  | cons a l ih =>
    simp only [List.map_cons, List.any_cons, hg, ih]

/-! ## Player map lemmas -/

theorem findPlayer_setPlayer (ps : List Player) (pid i : String) (f : Player → Player)
    (hf : ∀ q, (f q).id = q.id) :
    findPlayer (setPlayer ps pid f) i =
      (findPlayer ps i).map (fun q => if q.id == pid then f q else q) := by
  refine find?_map_id_pred ps _ _ ?_
  intro a
  by_cases h : a.id = pid <;> simp [h, hf]

theorem hasPlayer_setPlayer (ps : List Player) (pid i : String) (f : Player → Player)
    (hf : ∀ q, (f q).id = q.id) :
    hasPlayer (setPlayer ps pid f) i = hasPlayer ps i := by
  refine any_map_id_pred ps _ _ ?_
  intro a
  by_cases h : a.id = pid <;> simp [h, hf]

theorem findPlayer_mem {ps : List Player} {pid : String} {p : Player}
    (h : findPlayer ps pid = some p) : p ∈ ps ∧ p.id = pid := by
  refine ⟨List.mem_of_find?_eq_some h, ?_⟩
  have := List.find?_some h
  simpa using this

theorem mem_id_unique {ps : List Player} (hu : uniqueIds ps) {a b : Player}
    (ha : a ∈ ps) (hb : b ∈ ps) (hid : a.id = b.id) : a = b := by
  induction ps with
  | nil => cases ha
  | cons p ps ih =>
    rcases List.pairwise_cons.mp hu with ⟨hp, hrest⟩
    rcases List.mem_cons.mp ha with rfl | ha2
    · rcases List.mem_cons.mp hb with rfl | hb2
      · rfl
      · exact absurd hid (hp _ hb2)
    · rcases List.mem_cons.mp hb with rfl | hb2
      · exact absurd hid.symm (hp _ ha2)
      · exact ih hrest ha2 hb2

theorem findPlayer_of_mem {ps : List Player} (hu : uniqueIds ps) {v : Player}
    (hv : v ∈ ps) : findPlayer ps v.id = some v := by
  induction ps with
  | nil => cases hv
  | cons p ps ih =>
    rcases List.pairwise_cons.mp hu with ⟨hp, hrest⟩
    rcases List.mem_cons.mp hv with rfl | hv2
    · simp [findPlayer]
    · have hne : p.id ≠ v.id := hp _ hv2
      have : (p.id == v.id) = false := by simpa using fun h => hne h
      simp only [findPlayer, List.find?_cons, this]
      exact ih hrest hv2

/-! ## Bullet map lemmas -/

theorem findBullet_setBullet (bs : List Bullet) (bid i : String) (nb : Bullet)
    (hid : nb.id = bid) (hbid : bid = i) :
    findBullet (setBullet bs bid nb) i =
      (findBullet bs i).map (fun b => if b.id == bid then nb else b) := by
  subst hbid
  refine find?_map_id_pred bs _ _ ?_
  intro a
  by_cases h : a.id = bid <;> simp [h, hid]

theorem hasBullet_setBullet (bs : List Bullet) (bid i : String) (nb : Bullet)
    (hid : nb.id = bid) :
    hasBullet (setBullet bs bid nb) i = hasBullet bs i := by
  refine any_map_id_pred bs _ _ ?_
  intro a
  by_cases h : a.id = bid <;> simp [h, hid]

theorem findBullet_removeBullet_self (bs : List Bullet) (bid : String) :
    findBullet (removeBullet bs bid) bid = none := by
  rw [findBullet, List.find?_eq_none]
  intro b hb
  have := (List.mem_filter.mp hb).2
  simpa using this

theorem hasBullet_removeBullet (bs : List Bullet) (bid i : String)
    (h : hasBullet (removeBullet bs bid) i = true) : hasBullet bs i = true := by
  rw [hasBullet, List.any_eq_true] at h ⊢
  rcases h with ⟨b, hb, hbi⟩
  exact ⟨b, (List.mem_filter.mp hb).1, hbi⟩

/-! ## Characterization of `movePlayer` -/

theorem movePlayer_cases (ps : List Player) (pid dir : String) (now : Int) :
    movePlayer ps pid dir now = (false, ps) ∨
    ∃ p c, findPlayer ps pid = some p ∧ p.dead = false ∧ p.isSpectator = false ∧
      moveCandidate p dir = some c ∧ occupiedByOther ps pid c.1 c.2 = false ∧
      movePlayer ps pid dir now =
        (true, setPlayer ps pid (fun q => { q with x := c.1, y := c.2, lastSeen := now })) := by
  unfold movePlayer
  split
  next hf => exact Or.inl rfl
  next p hf =>
    split
    next hd => exact Or.inl rfl
    next hd =>
      simp only [Bool.or_eq_true, not_or, Bool.not_eq_true] at hd
      split
      next hc => exact Or.inl rfl
      next c hc =>
        split
        next ho => exact Or.inl rfl
        next ho =>
          exact Or.inr ⟨p, c, hf, hd.1, hd.2, hc, by simpa using ho, rfl⟩

theorem movePlayer_false_eq (ps : List Player) (pid dir : String) (now : Int)
    (h : (movePlayer ps pid dir now).1 = false) :
    (movePlayer ps pid dir now).2 = ps := by
  rcases movePlayer_cases ps pid dir now with he | ⟨p, c, _, _, _, _, _, he⟩
  · rw [he]
  · rw [he] at h ⊢
    simp at h

theorem movePlayer_dead (ps : List Player) (pid dir : String) (now : Int) {p : Player}
    (hf : findPlayer ps pid = some p) (hd : p.dead = true) :
    movePlayer ps pid dir now = (false, ps) := by
  rw [movePlayer, hf]
  simp [hd]

theorem shootBullet_dead (ps : List Player) (bs : List Bullet) (pid dir : String)
    (now : Int) {p : Player} (hf : findPlayer ps pid = some p) (hd : p.dead = true) :
    shootBullet ps bs pid dir now = (false, ps, bs) := by
  rw [shootBullet, hf]
  simp [hd]

/-! ## Sample entities used in concrete witnesses and counterexamples -/

/-- An alive fighter at the world center. -/
def samplePlayerA : Player :=
  { id := "p1", name := "a", x := 75, y := 20, character := "A", kills := 0, deaths := 0,
    lastSeen := 0, dead := false, respawnAt := 0, lastShot := 0, isSpectator := false }

/-- An alive fighter one cell to the right of the center, with a score. -/
def samplePlayerB : Player :=
  { id := "p2", name := "b", x := 76, y := 20, character := "B", kills := 2, deaths := 1,
    lastSeen := 0, dead := false, respawnAt := 0, lastShot := 0, isSpectator := false }

/-- An alive spectator standing on cell (0,0). -/
def sampleSpectator : Player :=
  { id := "s1", name := "spec", x := 0, y := 0, character := "S", kills := 0, deaths := 0,
    lastSeen := 0, dead := false, respawnAt := 0, lastShot := 0, isSpectator := true }

/-! ## C6 — join validation versus the spectator flag -/

/-- C6: the spec claims a join with `spectator = true` is accepted regardless of
the character field, but `handleWebSocket` drops every join whose character is
not exactly one byte (`if len(joinData.Character) != 1 { continue }`) with no
spectator exception: a spectator join with the empty character (which the
game's own embedded client sends, since it clears the character input for
spectators) binds no player and changes no state. -/
theorem C6_spectator_join_rejected :
    joinPlayer [] "alice" "" true 7 = [] ∧
    joinPlayer [samplePlayerA] "bob" "" true 8 = [samplePlayerA] := by
  exact ⟨rfl, rfl⟩

/-! ## C7 — join id uniqueness -/

/-- C7 as stated: a successful join always registers a fresh entry (the map
grows by one), and a rejected join leaves the map unchanged; in no case does a
join replace an existing player's entry. -/
def ClaimC7 : Prop :=
  ∀ (ps : List Player) (name ch : String) (sp : Bool) (t : Int),
    (joinPlayer ps name ch sp t).length = ps.length + 1 ∨ joinPlayer ps name ch sp t = ps

/-- C7 counterexample: ids are `"p" + (UnixNano % 10000)`, so joins at times
1 and 10001 collide on id `"p1"` and the second successful join replaces the
first player's entry (the map still has one entry, now holding the second
player). -/
theorem C7_counterexample : ¬ ClaimC7 := by
  intro h
  rcases h (joinPlayer [] "a" "A" false 1) "b" "B" false 10001 with h1 | h1
  · exact absurd h1 (by decide)
  · exact absurd h1 (by decide)

theorem findPlayer_replace (ps : List Player) (np : Player) (i : String)
    (hnp : np.id = i) (h : hasPlayer ps i = true) :
    findPlayer (ps.map (fun p => if p.id == i then np else p)) i = some np := by
  induction ps with
  | nil => simp [hasPlayer] at h
  | cons p ps ih =>
    by_cases hp : p.id = i
    · simp [findPlayer, List.find?_cons, hp, hnp]
    · have h2 : hasPlayer ps i = true := by
        rcases List.any_eq_true.mp h with ⟨q, hq, hqi⟩
        rcases List.mem_cons.mp hq with rfl | hq2
        · exact absurd (by simpa using hqi) hp
        · exact List.any_eq_true.mpr ⟨q, hq2, hqi⟩
      simpa [findPlayer, List.map_cons, List.find?_cons, hp] using ih h2

/-- C7 (amended): the id of a join at time `t` is `"p" + (t % 10000)`.  A
successful join whose id is not yet registered appends a fresh entry and
keeps every existing entry; a successful join whose id is already registered
keeps the map size unchanged and replaces that id's entry with the new
player. -/
theorem C7_join_id_behavior :
    ∀ (ps : List Player) (name ch : String) (sp : Bool) (t : Int),
    ch.utf8ByteSize = 1 →
    (hasPlayer ps (newPlayer name ch sp t).id = false →
      joinPlayer ps name ch sp t = ps ++ [newPlayer name ch sp t]) ∧
    (hasPlayer ps (newPlayer name ch sp t).id = true →
      (joinPlayer ps name ch sp t).length = ps.length ∧
      findPlayer (joinPlayer ps name ch sp t) (newPlayer name ch sp t).id
        = some (newPlayer name ch sp t)) := by
  intro ps name ch sp t hch
  constructor
  · intro hno
    simp [joinPlayer, hch, insertPlayer, hno]
  · intro hyes
    constructor
    · simp [joinPlayer, hch, insertPlayer, hyes]
    · simp only [joinPlayer, hch, insertPlayer, hyes, bne_self_eq_false,
        Bool.false_eq_true, if_false, if_true]
      exact findPlayer_replace ps _ _ rfl hyes

/-- Witness for the C7 amended theorem at concrete inputs: a first join on an
empty map appends, and a colliding join replaces. -/
theorem C7_join_id_behavior_witness :
    joinPlayer [] "a" "A" false 1 = [] ++ [newPlayer "a" "A" false 1] ∧
    findPlayer (joinPlayer (joinPlayer [] "a" "A" false 1) "b" "B" false 10001)
        (newPlayer "b" "B" false 10001).id = some (newPlayer "b" "B" false 10001) := by
  constructor
  · exact (C7_join_id_behavior [] "a" "A" false 1 (by decide)).1 (by decide)
  · exact ((C7_join_id_behavior (joinPlayer [] "a" "A" false 1) "b" "B" false 10001
      (by decide)).2 (by decide)).2

/-! ## C2 — the `movePlayer` contract -/

/-- C2: a move request fails (returning `false` and mutating nothing) when the
player is unknown, dead or spectating, when the direction is not one of
up/down/left/right (`moveCandidate` is `none`), or when another non-dead
player already occupies the candidate cell; otherwise it succeeds and sets the
player's position to the candidate cell, which is the old position stepped by
one and clamped to `[0, WORLD_WIDTH-1] × [0, WORLD_HEIGHT-1]` — in particular
the result of a successful move from an in-bounds cell is in bounds. -/
theorem C2_movePlayer_contract :
    ∀ (ps : List Player) (pid dir : String) (now : Int),
    ((movePlayer ps pid dir now).1 = false → (movePlayer ps pid dir now).2 = ps) ∧
    (findPlayer ps pid = none → (movePlayer ps pid dir now).1 = false) ∧
    (∀ p, findPlayer ps pid = some p →
      ((p.dead = true ∨ p.isSpectator = true) → (movePlayer ps pid dir now).1 = false) ∧
      (moveCandidate p dir = none → (movePlayer ps pid dir now).1 = false) ∧
      (∀ c, moveCandidate p dir = some c →
        (occupiedByOther ps pid c.1 c.2 = true → (movePlayer ps pid dir now).1 = false) ∧
        (p.dead = false → p.isSpectator = false → occupiedByOther ps pid c.1 c.2 = false →
          movePlayer ps pid dir now =
            (true, setPlayer ps pid (fun q => { q with x := c.1, y := c.2, lastSeen := now }))) ∧
        (0 ≤ p.x → p.x < WORLD_WIDTH → 0 ≤ p.y → p.y < WORLD_HEIGHT →
          0 ≤ c.1 ∧ c.1 < WORLD_WIDTH ∧ 0 ≤ c.2 ∧ c.2 < WORLD_HEIGHT))) := by
  intro ps pid dir now
  refine ⟨movePlayer_false_eq ps pid dir now, ?_, ?_⟩
  · intro hn
    simp [movePlayer, hn]
  · intro p hf
    refine ⟨?_, ?_, ?_⟩
    · rintro (hd | hs)
      · simp [movePlayer, hf, hd]
      · simp [movePlayer, hf, hs]
    · intro hc
      by_cases hd : (p.dead || p.isSpectator) = true
      · simp [movePlayer, hf, hd]
      · simp [movePlayer, hf, hd, hc]
    · intro c hc
      refine ⟨?_, ?_, ?_⟩
      · intro ho
        by_cases hd : (p.dead || p.isSpectator) = true
        · simp [movePlayer, hf, hd]
        · simp [movePlayer, hf, hd, hc, ho]
      · intro hd hs ho
        simp [movePlayer, hf, hd, hs, hc, ho]
      · intro hx1 hx2 hy1 hy2
        unfold moveCandidate at hc
        split_ifs at hc <;>
          first
          | exact Option.noConfusion hc
          | (simp only [Option.some.injEq] at hc
             subst hc
             dsimp only
             refine ⟨?_, ?_, ?_, ?_⟩ <;>
               simp only [WORLD_WIDTH, WORLD_HEIGHT] at * <;> omega)

/-- Witness for C2 at a concrete input: the sample player at the center moves
up to (75,19). -/
theorem C2_movePlayer_contract_witness :
    movePlayer [samplePlayerA] "p1" "up" 5 =
      (true, setPlayer [samplePlayerA] "p1"
        (fun q => { q with x := (75 : Int), y := (19 : Int), lastSeen := (5 : Int) })) := by
  have h := C2_movePlayer_contract [samplePlayerA] "p1" "up" 5
  exact ((h.2.2 samplePlayerA (by decide)).2.2 ((75 : Int), (19 : Int))
    (by decide)).2.1 (by decide) (by decide) (by decide)

/-! ## C5 — shoot cooldown -/

/-- The dispatcher's view of a sequence of shoot requests by one player: fold
`shootBullet` over the requests (direction and `time.Now()` sample) and
collect the times of the successful shots. -/
def runShots (pid : String) : List Player → List Bullet → List (String × Int) → List Int
  | _, _, [] => []
  | ps, bs, r :: rest =>
    let out := shootBullet ps bs pid r.1 r.2
    if out.1 then r.2 :: runShots pid out.2.1 out.2.2 rest
    else runShots pid out.2.1 out.2.2 rest

theorem shootBullet_cases (ps : List Player) (bs : List Bullet) (pid dir : String)
    (now : Int) :
    shootBullet ps bs pid dir now = (false, ps, bs) ∨
    ∃ p d, findPlayer ps pid = some p ∧ p.dead = false ∧ p.isSpectator = false ∧
      SHOOT_COOLDOWN ≤ now - p.lastShot ∧ shootDir dir = some d ∧
      shootBullet ps bs pid dir now =
        (true, setPlayer ps pid (fun q => { q with lastShot := now }),
         insertBullet bs { id := "bullet_" ++ toString now, x := p.x, y := p.y,
                           dirX := d.1, dirY := d.2, ownerID := pid, character := "*" }) := by
  unfold shootBullet
  split
  next hf => exact Or.inl rfl
  next p hf =>
    split
    next hd => exact Or.inl rfl
    next hd =>
      simp only [Bool.or_eq_true, not_or, Bool.not_eq_true] at hd
      split
      next hcool => exact Or.inl rfl
      next hcool =>
        split
        next hdir => exact Or.inl rfl
        next d hdir =>
          exact Or.inr ⟨p, d, hf, hd.1, hd.2, by omega, hdir, rfl⟩

theorem runShots_lower (pid : String) :
    ∀ (reqs : List (String × Int)) (ps : List Player) (bs : List Bullet) (p : Player),
    findPlayer ps pid = some p →
    ∀ t ∈ runShots pid ps bs reqs, p.lastShot + SHOOT_COOLDOWN ≤ t := by
  intro reqs
  induction reqs with
  | nil => intro ps bs p _ t ht; simp [runShots] at ht
  | cons r rest ih =>
    intro ps bs p hf t ht
    rcases shootBullet_cases ps bs pid r.1 r.2 with he | ⟨q, d, hfq, _, _, hcool, _, he⟩
    · rw [runShots, he] at ht
      exact ih ps bs p hf t (by simpa using ht)
    · have hq : q = p := by
        rw [hf] at hfq
        exact ((Option.some.injEq _ _).mp hfq).symm
      subst hq
      rw [runShots, he] at ht
      simp only [if_true, List.mem_cons] at ht
      rcases ht with rfl | ht
      · omega
      · have hid : q.id = pid := (findPlayer_mem hf).2
        have hf2 : findPlayer (setPlayer ps pid (fun w => { w with lastShot := r.2 })) pid
            = some { q with lastShot := r.2 } := by
          rw [findPlayer_setPlayer ps pid pid
            (fun w => { w with lastShot := r.2 }) (fun w => rfl), hf]
          simp [hid]
        have := ih _ _ _ hf2 t ht
        simp only at this
        have hC : (0 : Int) < SHOOT_COOLDOWN := by decide
        omega

theorem runShots_pairwise (pid : String) :
    ∀ (reqs : List (String × Int)) (ps : List Player) (bs : List Bullet),
    List.Pairwise (fun a b => a + SHOOT_COOLDOWN ≤ b) (runShots pid ps bs reqs) := by
  intro reqs
  induction reqs with
  | nil => intro ps bs; simp [runShots]
  | cons r rest ih =>
    intro ps bs
    rcases shootBullet_cases ps bs pid r.1 r.2 with he | ⟨q, d, hfq, _, _, hcool, _, he⟩
    · rw [runShots, he]
      simpa using ih ps bs
    · rw [runShots, he]
      simp only [if_true, List.pairwise_cons]
      constructor
      · intro t ht
        have hid : q.id = pid := (findPlayer_mem hfq).2
        have hf2 : findPlayer (setPlayer ps pid (fun w => { w with lastShot := r.2 })) pid
            = some { q with lastShot := r.2 } := by
          rw [findPlayer_setPlayer ps pid pid
            (fun w => { w with lastShot := r.2 }) (fun w => rfl), hfq]
          simp [hid]
        have := runShots_lower pid rest _ _ _ hf2 t (by simpa using ht)
        simpa using this
      · exact ih _ _

/-- C5: a shoot request fails whenever less than `SHOOT_COOLDOWN` (500 ms) has
elapsed since the player's stored last-shot time; every successful shot stamps
the player's last-shot timestamp with the request time; and in any sequence of
shoot requests by one player, any two successful shots are at least
`SHOOT_COOLDOWN` apart (each later success is ≥ 500 ms after each earlier
one). -/
theorem C5_shoot_cooldown :
    ∀ (ps : List Player) (bs : List Bullet) (pid dir : String) (now : Int)
      (reqs : List (String × Int)),
    (∀ p, findPlayer ps pid = some p → now - p.lastShot < SHOOT_COOLDOWN →
      (shootBullet ps bs pid dir now).1 = false) ∧
    ((shootBullet ps bs pid dir now).1 = true →
      ∀ p, findPlayer ps pid = some p →
        findPlayer (shootBullet ps bs pid dir now).2.1 pid
          = some { p with lastShot := now }) ∧
    List.Pairwise (fun a b => a + SHOOT_COOLDOWN ≤ b) (runShots pid ps bs reqs) := by
  intro ps bs pid dir now reqs
  refine ⟨?_, ?_, runShots_pairwise pid reqs ps bs⟩
  · intro p hf hlt
    rcases shootBullet_cases ps bs pid dir now with he | ⟨q, d, hfq, _, _, hcool, _, he⟩
    · rw [he]
    · rw [hf] at hfq
      have hq : q = p := ((Option.some.injEq _ _).mp hfq).symm
      subst hq
      omega
  · intro hs p hf
    rcases shootBullet_cases ps bs pid dir now with he | ⟨q, d, hfq, _, _, hcool, _, he⟩
    · rw [he] at hs; simp at hs
    · rw [hf] at hfq
      have hq : q = p := ((Option.some.injEq _ _).mp hfq).symm
      subst hq
      rw [he]
      have hid : q.id = pid := (findPlayer_mem hf).2
      rw [findPlayer_setPlayer ps pid pid
        (fun w => { w with lastShot := now }) (fun w => rfl), hf]
      simp [hid]

/-- Witness for C5 at a concrete input: 100 ns after a shot at time 0, the
sample player's next shoot request is rejected. -/
theorem C5_shoot_cooldown_witness :
    (shootBullet [samplePlayerA] [] "p1" "up" 100).1 = false :=
  (C5_shoot_cooldown [samplePlayerA] [] "p1" "up" 100 []).1 samplePlayerA
    (by decide) (by decide)

/-! ## C3 — bullet advancement and removal -/

/-- A sequence of bullet-timeline ticks (bullet id and `time.Now()` sample per
tick) applied to the locked state. -/
def runTicks : List Player → List Bullet → List (String × Int) → List Player × List Bullet
  | ps, bs, [] => (ps, bs)
  | ps, bs, t :: rest =>
    let r := moveBulletTick ps bs t.1 t.2
    runTicks r.players r.bullets rest

theorem findBullet_mem {bs : List Bullet} {bid : String} {b : Bullet}
    (h : findBullet bs bid = some b) : b ∈ bs ∧ b.id = bid := by
  refine ⟨List.mem_of_find?_eq_some h, ?_⟩
  have := List.find?_some h
  simpa using this

theorem moveBulletTick_bullets_sub (ps : List Player) (bs : List Bullet)
    (bid : String) (now : Int) (i : String)
    (h : hasBullet (moveBulletTick ps bs bid now).bullets i = true) :
    hasBullet bs i = true := by
  cases hfb : findBullet bs bid with
  | none =>
    have hbs : (moveBulletTick ps bs bid now).bullets = bs := by
      simp [moveBulletTick, hfb]
    rwa [hbs] at h
  | some b =>
    have hbid : b.id = bid := (findBullet_mem hfb).2
    cases hg : bulletGone (advanceBullet b).x (advanceBullet b).y with
    | true =>
      have hbs : (moveBulletTick ps bs bid now).bullets
          = removeBullet (setBullet bs bid (advanceBullet b)) bid := by
        simp [moveBulletTick, hfb, hg]
      rw [hbs] at h
      have h2 := hasBullet_removeBullet _ bid i h
      rwa [hasBullet_setBullet bs bid i (advanceBullet b) hbid] at h2
    | false =>
      cases hh : hitScan ps (advanceBullet b) with
      | some v =>
        have hbs : (moveBulletTick ps bs bid now).bullets
            = removeBullet (setBullet bs bid (advanceBullet b)) bid := by
          simp [moveBulletTick, hfb, hg, hh]
        rw [hbs] at h
        have h2 := hasBullet_removeBullet _ bid i h
        rwa [hasBullet_setBullet bs bid i (advanceBullet b) hbid] at h2
      | none =>
        have hbs : (moveBulletTick ps bs bid now).bullets
            = setBullet bs bid (advanceBullet b) := by
          simp [moveBulletTick, hfb, hg, hh]
        rw [hbs] at h
        rwa [hasBullet_setBullet bs bid i (advanceBullet b) hbid] at h

theorem runTicks_absent (bid : String) :
    ∀ (ts : List (String × Int)) (ps : List Player) (bs : List Bullet),
    hasBullet bs bid = false → hasBullet (runTicks ps bs ts).2 bid = false := by
  intro ts
  induction ts with
  | nil => intro ps bs h; simpa [runTicks] using h
  | cons t rest ih =>
    intro ps bs h
    simp only [runTicks]
    refine ih _ _ ?_
    cases h2 : hasBullet (moveBulletTick ps bs t.1 t.2).bullets bid with
    | false => rfl
    | true =>
      exact absurd (moveBulletTick_bullets_sub ps bs t.1 t.2 bid h2) (by simp [h])

/-- C3: a bullet-timeline tick stops silently when the bullet id is gone from
the map; when the bullet is present its coordinates change by exactly its
direction vector (if the bullet survives the tick, its stored position is the
old one plus `(dirX, dirY)`); if the advanced position is out of world bounds
the bullet is deleted and the timeline stops; a tick never adds any bullet id
to the map, so an id absent from the bullet set stays absent through any
further sequence of ticks (a removed bullet id never reappears). -/
theorem C3_bullet_advancement :
    ∀ (ps : List Player) (bs : List Bullet) (bid : String) (now : Int),
    (findBullet bs bid = none → moveBulletTick ps bs bid now = ⟨true, ps, bs⟩) ∧
    (∀ b, findBullet bs bid = some b →
      (∀ b2, findBullet (moveBulletTick ps bs bid now).bullets bid = some b2 →
        b2.x = b.x + b.dirX ∧ b2.y = b.y + b.dirY) ∧
      (bulletGone (b.x + b.dirX) (b.y + b.dirY) = true →
        (moveBulletTick ps bs bid now).stop = true ∧
        findBullet (moveBulletTick ps bs bid now).bullets bid = none)) ∧
    (∀ i, hasBullet (moveBulletTick ps bs bid now).bullets i = true →
      hasBullet bs i = true) ∧
    (∀ ts : List (String × Int), hasBullet bs bid = false →
      hasBullet (runTicks ps bs ts).2 bid = false) := by
  intro ps bs bid now
  refine ⟨?_, ?_, fun i => moveBulletTick_bullets_sub ps bs bid now i,
    fun ts => runTicks_absent bid ts ps bs⟩
  · intro hn
    simp [moveBulletTick, hn]
  · intro b hfb
    have hbid : b.id = bid := (findBullet_mem hfb).2
    constructor
    · intro b2 h2
      cases hg : bulletGone (advanceBullet b).x (advanceBullet b).y with
      | true =>
        have hbs : (moveBulletTick ps bs bid now).bullets
            = removeBullet (setBullet bs bid (advanceBullet b)) bid := by
          simp [moveBulletTick, hfb, hg]
        rw [hbs, findBullet_removeBullet_self] at h2
        exact Option.noConfusion h2
      | false =>
        cases hh : hitScan ps (advanceBullet b) with
        | some v =>
          have hbs : (moveBulletTick ps bs bid now).bullets
              = removeBullet (setBullet bs bid (advanceBullet b)) bid := by
            simp [moveBulletTick, hfb, hg, hh]
          rw [hbs, findBullet_removeBullet_self] at h2
          exact Option.noConfusion h2
        | none =>
          have hbs : (moveBulletTick ps bs bid now).bullets
              = setBullet bs bid (advanceBullet b) := by
            simp [moveBulletTick, hfb, hg, hh]
          rw [hbs, findBullet_setBullet bs bid bid (advanceBullet b) hbid rfl, hfb] at h2
          simp [hbid] at h2
          subst h2
          exact ⟨rfl, rfl⟩
    · intro hgone
      have hg : bulletGone (advanceBullet b).x (advanceBullet b).y = true := hgone
      have hbs : moveBulletTick ps bs bid now
          = ⟨true, ps, removeBullet (setBullet bs bid (advanceBullet b)) bid⟩ := by
        simp [moveBulletTick, hfb, hg]
      rw [hbs]
      exact ⟨rfl, findBullet_removeBullet_self _ bid⟩

/-- A bullet at the right edge flying right. -/
def sampleBullet : Bullet :=
  { id := "bullet_1", x := 149, y := 20, dirX := 1, dirY := 0,
    ownerID := "p1", character := "*" }

/-- Witness for C3 at a concrete input: a bullet at x = 149 flying right is
removed by its next tick and the timeline stops. -/
theorem C3_bullet_advancement_witness :
    (moveBulletTick [] [sampleBullet] "bullet_1" 0).stop = true ∧
    findBullet (moveBulletTick [] [sampleBullet] "bullet_1" 0).bullets "bullet_1" = none :=
  ((C3_bullet_advancement [] [sampleBullet] "bullet_1" 0).2.1 sampleBullet
    (by decide)).2 (by decide)


/-! ## C4 — hit processing -/

theorem hasPlayer_of_findPlayer {ps : List Player} {pid : String} {p : Player}
    (h : findPlayer ps pid = some p) : hasPlayer ps pid = true := by
  rcases findPlayer_mem h with ⟨hm, hid⟩
  exact List.any_eq_true.mpr ⟨p, hm, by simp [hid]⟩

theorem hitScan_facts {ps : List Player} {b : Bullet} {v : Player}
    (h : hitScan ps b = some v) :
    v ∈ ps ∧ v.dead = false ∧ v.x = b.x ∧ v.y = b.y ∧ v.id ≠ b.ownerID := by
  refine ⟨List.mem_of_find?_eq_some h, ?_⟩
  have h2 := List.find?_some h
  simp only [Bool.and_eq_true, Bool.not_eq_eq_eq_not, Bool.not_true, beq_iff_eq,
    bne_iff_ne] at h2
  obtain ⟨⟨⟨hd, hx⟩, hy⟩, hne⟩ := h2
  exact ⟨hd, hx, hy, hne⟩

theorem moveBulletTick_hit (ps : List Player) (bs : List Bullet) (bid : String)
    (now : Int) (b : Bullet) (victim : Player)
    (hfb : findBullet bs bid = some b)
    (hin : bulletGone (advanceBullet b).x (advanceBullet b).y = false)
    (hhit : hitScan ps (advanceBullet b) = some victim)
    (hu : uniqueIds ps) :
    (moveBulletTick ps bs bid now).stop = true ∧
    findBullet (moveBulletTick ps bs bid now).bullets bid = none ∧
    findPlayer (moveBulletTick ps bs bid now).players victim.id
      = some (markDead now victim) ∧
    (∀ sh, findPlayer ps b.ownerID = some sh →
      findPlayer (moveBulletTick ps bs bid now).players b.ownerID
        = some (creditKill sh)) ∧
    (∀ q ∈ ps, q.id ≠ victim.id → q.id ≠ b.ownerID →
      q ∈ (moveBulletTick ps bs bid now).players) := by
  have hT : moveBulletTick ps bs bid now =
      ⟨true,
        (if hasPlayer (setPlayer ps victim.id (markDead now)) b.ownerID then
          setPlayer (setPlayer ps victim.id (markDead now)) b.ownerID creditKill
        else setPlayer ps victim.id (markDead now)),
        removeBullet (setBullet bs bid (advanceBullet b)) bid⟩ := by
    simp [moveBulletTick, hfb, hin, hhit]
  rcases hitScan_facts hhit with ⟨hvmem, hvdead, hvx, hvy, hvne⟩
  have hvfind : findPlayer ps victim.id = some victim := findPlayer_of_mem hu hvmem
  have hfind1 : findPlayer (setPlayer ps victim.id (markDead now)) victim.id
      = some (markDead now victim) := by
    rw [findPlayer_setPlayer ps victim.id victim.id (markDead now) (fun w => rfl), hvfind]
    simp
  rw [hT]
  refine ⟨rfl, findBullet_removeBullet_self _ _, ?_, ?_, ?_⟩
  · by_cases hH : hasPlayer (setPlayer ps victim.id (markDead now)) b.ownerID = true
    · rw [if_pos hH]
      rw [findPlayer_setPlayer _ b.ownerID victim.id creditKill (fun w => rfl), hfind1]
      have hvne2 : victim.id ≠ b.ownerID := hvne
      have hmid : (markDead now victim).id = victim.id := rfl
      simp [hmid, hvne2]
    · rw [if_neg hH]
      exact hfind1
  · intro sh hsh
    have hshid : sh.id = b.ownerID := (findPlayer_mem hsh).2
    have hne2 : sh.id ≠ victim.id := by
      rw [hshid]
      exact fun h => hvne h.symm
    have hH : hasPlayer (setPlayer ps victim.id (markDead now)) b.ownerID = true := by
      rw [hasPlayer_setPlayer ps victim.id b.ownerID (markDead now) (fun w => rfl)]
      exact hasPlayer_of_findPlayer hsh
    rw [if_pos hH]
    have hf1 : findPlayer (setPlayer ps victim.id (markDead now)) b.ownerID = some sh := by
      rw [findPlayer_setPlayer ps victim.id b.ownerID (markDead now) (fun w => rfl), hsh]
      simp [hne2]
    rw [findPlayer_setPlayer _ b.ownerID b.ownerID creditKill (fun w => rfl), hf1]
    simp [hshid]
  · intro q hq hqv hqo
    have m1 : q ∈ setPlayer ps victim.id (markDead now) := by
      rw [setPlayer]
      exact List.mem_map.mpr ⟨q, hq, by simp [hqv]⟩
    by_cases hH : hasPlayer (setPlayer ps victim.id (markDead now)) b.ownerID = true
    · rw [if_pos hH, setPlayer]
      exact List.mem_map.mpr ⟨q, m1, by simp [hqo]⟩
    · rw [if_neg hH]
      exact m1

/-- C4: when a bullet tick finds its advanced cell in bounds and occupied by a
non-dead, non-owner player, exactly one hit happens: the victim entry is
marked dead with its death count bumped by exactly one and its respawn
timestamp set to `now + RESPAWN_TIME` (3 s); the shooter entry, if the owner
id is still registered, has its kill count bumped by exactly one; every other
player entry is unchanged; the bullet is removed and the timeline stops; and
from the resulting state the dead victim can neither move nor shoot (both
return `false` without mutation). -/
theorem C4_hit_effects :
    ∀ (ps : List Player) (bs : List Bullet) (bid : String) (now : Int)
      (b : Bullet) (victim : Player),
    findBullet bs bid = some b →
    bulletGone (b.x + b.dirX) (b.y + b.dirY) = false →
    hitScan ps (advanceBullet b) = some victim →
    uniqueIds ps →
    (moveBulletTick ps bs bid now).stop = true ∧
    findBullet (moveBulletTick ps bs bid now).bullets bid = none ∧
    findPlayer (moveBulletTick ps bs bid now).players victim.id
      = some { victim with dead := true, deaths := victim.deaths + 1,
                           respawnAt := now + RESPAWN_TIME } ∧
    (∀ sh, findPlayer ps b.ownerID = some sh →
      findPlayer (moveBulletTick ps bs bid now).players b.ownerID
        = some { sh with kills := sh.kills + 1 }) ∧
    (∀ q ∈ ps, q.id ≠ victim.id → q.id ≠ b.ownerID →
      q ∈ (moveBulletTick ps bs bid now).players) ∧
    (∀ dir t, movePlayer (moveBulletTick ps bs bid now).players victim.id dir t
        = (false, (moveBulletTick ps bs bid now).players)) ∧
    (∀ bs2 dir t, shootBullet (moveBulletTick ps bs bid now).players bs2 victim.id dir t
        = (false, (moveBulletTick ps bs bid now).players, bs2)) := by
  intro ps bs bid now b victim hfb hin hhit hu
  have hin2 : bulletGone (advanceBullet b).x (advanceBullet b).y = false := hin
  rcases moveBulletTick_hit ps bs bid now b victim hfb hin2 hhit hu with
    ⟨h1, h2, h3, h4, h5⟩
  refine ⟨h1, h2, h3, h4, h5, ?_, ?_⟩
  · intro dir t
    exact movePlayer_dead _ victim.id dir t h3 rfl
  · intro bs2 dir t
    exact shootBullet_dead _ bs2 victim.id dir t h3 rfl

/-- The bullet shot by the sample player A, one tick before reaching B. -/
def sampleBulletA : Bullet :=
  { id := "bullet_7", x := 75, y := 20, dirX := 1, dirY := 0,
    ownerID := "p1", character := "*" }

/-- Witness for C4 at a concrete input: A at (75,20) has shot right, the
bullet reaches B at (76,20); B dies with deaths 1 → 2, A is credited with a
kill. -/
theorem C4_hit_effects_witness :
    findPlayer (moveBulletTick [samplePlayerA, samplePlayerB] [sampleBulletA]
        "bullet_7" 5).players "p2"
      = some { samplePlayerB with dead := true, deaths := 2,
                                  respawnAt := 5 + RESPAWN_TIME } ∧
    findPlayer (moveBulletTick [samplePlayerA, samplePlayerB] [sampleBulletA]
        "bullet_7" 5).players "p1"
      = some { samplePlayerA with kills := 1 } := by
  have h := C4_hit_effects [samplePlayerA, samplePlayerB] [sampleBulletA] "bullet_7" 5
    sampleBulletA samplePlayerB (by decide) (by decide) (by decide) (by decide)
  exact ⟨h.2.2.1, h.2.2.2.1 samplePlayerA (by decide)⟩



/-! ## C10 — spectators in collision and hit detection -/

/-- A second alive fighter used to exercise the spectator-collision path. -/
def sampleMover : Player :=
  { id := "p9", name := "m", x := 1, y := 0, character := "M", kills := 0, deaths := 0,
    lastSeen := 0, dead := false, respawnAt := 0, lastShot := 0, isSpectator := false }

/-- C10: neither the move occupancy scan (`occupiedByOther`) nor the bullet
hit scan (`hitScan`) excludes spectators, so an alive spectator blocks moves
onto its cell exactly like a fighter, and a bullet tick whose advanced cell
holds an alive, non-owner spectator kills that spectator (dead flag, death
count +1, respawn timestamp, shooter kill credit). -/
theorem C10_spectator_interaction :
    (∀ (ps : List Player) (pid dir : String) (now : Int) (p q : Player) (c : Int × Int),
      findPlayer ps pid = some p →
      moveCandidate p dir = some c →
      q ∈ ps → q.id ≠ pid → q.dead = false → q.isSpectator = true →
      q.x = c.1 → q.y = c.2 →
      movePlayer ps pid dir now = (false, ps)) ∧
    (∀ (ps : List Player) (bs : List Bullet) (bid : String) (now : Int)
       (b : Bullet) (victim : Player),
      findBullet bs bid = some b →
      bulletGone (b.x + b.dirX) (b.y + b.dirY) = false →
      hitScan ps (advanceBullet b) = some victim →
      victim.isSpectator = true →
      uniqueIds ps →
      findPlayer (moveBulletTick ps bs bid now).players victim.id
        = some { victim with dead := true, deaths := victim.deaths + 1,
                             respawnAt := now + RESPAWN_TIME } ∧
      (∀ sh, findPlayer ps b.ownerID = some sh →
        findPlayer (moveBulletTick ps bs bid now).players b.ownerID
          = some { sh with kills := sh.kills + 1 })) := by
  constructor
  · intro ps pid dir now p q c hf hc hqmem hqne hqd hqs hqx hqy
    by_cases hd : (p.dead || p.isSpectator) = true
    · simp [movePlayer, hf, hd]
    · have ho : occupiedByOther ps pid c.1 c.2 = true :=
        List.any_eq_true.mpr ⟨q, hqmem, by simp [hqne, hqd, hqx, hqy]⟩
      simp [movePlayer, hf, hd, hc, ho]
  · intro ps bs bid now b victim hfb hin hhit hspec hu
    have hin2 : bulletGone (advanceBullet b).x (advanceBullet b).y = false := hin
    rcases moveBulletTick_hit ps bs bid now b victim hfb hin2 hhit hu with
      ⟨_, _, h3, h4, _⟩
    exact ⟨h3, h4⟩

/-- Witness for C10 at a concrete input: the mover at (1,0) cannot move left
onto the alive spectator standing at (0,0). -/
theorem C10_spectator_interaction_witness :
    movePlayer [sampleMover, sampleSpectator] "p9" "left" 3
      = (false, [sampleMover, sampleSpectator]) :=
  C10_spectator_interaction.1 [sampleMover, sampleSpectator] "p9" "left" 3
    sampleMover sampleSpectator ((0 : Int), (0 : Int)) (by decide) (by decide)
    (by decide) (by decide) (by decide) (by decide) (by decide) (by decide)



/-! ## C1 — the occupancy invariant -/

theorem noCollisionB_iff (ps : List Player) : noCollisionB ps = true ↔ noCollision ps := by
  induction ps with
  | nil => simp [noCollisionB, noCollision]
  | cons p rest ih =>
    simp only [noCollisionB, Bool.and_eq_true, List.all_eq_true, Bool.not_eq_true',
      noCollision, List.pairwise_cons]
    exact and_congr Iff.rfl ih

/-- C1 as stated: starting from the empty server state, after any sequence of
operations no two alive, non-spectator players occupy the same grid cell. -/
def ClaimC1 : Prop :=
  ∀ ops : List Op, noCollisionB (runOps initState ops).players = true

/-- C1 counterexample: `handleWebSocket` places every joining player at the
world center without any occupancy check, so two plain joins already produce
two alive, non-spectator players on cell (75,20). -/
theorem C1_counterexample : ¬ ClaimC1 := by
  intro h
  have h2 := h [Op.join "a" "A" false 1, Op.join "b" "B" false 2]
  exact absurd h2 (by decide)

theorem uniqueIds_map (ps : List Player) (g : Player → Player)
    (hid : ∀ a, (g a).id = a.id) (h : uniqueIds ps) : uniqueIds (ps.map g) := by
  refine List.pairwise_map.mpr (h.imp ?_)
  intro a b hab
  rw [hid a, hid b]
  exact hab

theorem noCollision_map (ps : List Player) (g : Player → Player)
    (hx : ∀ a, (g a).x = a.x) (hy : ∀ a, (g a).y = a.y)
    (hs : ∀ a, (g a).isSpectator = a.isSpectator)
    (hd : ∀ a, (g a).dead = false → a.dead = false)
    (h : noCollision ps) : noCollision (ps.map g) := by
  refine List.pairwise_map.mpr (h.imp ?_)
  intro a b hab
  cases hcg : collides (g a) (g b) with
  | false => rfl
  | true =>
    exfalso
    simp only [collides, aliveNonSpectator, sameCell, Bool.and_eq_true,
      Bool.not_eq_true', beq_iff_eq] at hcg
    obtain ⟨⟨⟨hda, hsa⟩, hdb, hsb⟩, hxx, hyy⟩ := hcg
    have hcoll : collides a b = true := by
      simp only [collides, aliveNonSpectator, sameCell, Bool.and_eq_true,
        Bool.not_eq_true', beq_iff_eq]
      refine ⟨⟨⟨hd a hda, ?_⟩, hd b hdb, ?_⟩, ?_, ?_⟩
      · rw [← hs a]; exact hsa
      · rw [← hs b]; exact hsb
      · rw [← hx a, ← hx b]; exact hxx
      · rw [← hy a, ← hy b]; exact hyy
    rw [hab] at hcoll
    exact Bool.noConfusion hcoll

theorem movePlayer_preserves (ps : List Player) (pid dir : String) (now : Int)
    (hu : uniqueIds ps) (hc : noCollision ps) :
    uniqueIds (movePlayer ps pid dir now).2 ∧ noCollision (movePlayer ps pid dir now).2 := by
  rcases movePlayer_cases ps pid dir now with he | ⟨p, c, hf, hpd, hps, hcand, hocc, he⟩
  · rw [he]
    exact ⟨hu, hc⟩
  · rw [he]
    have hocc2 : ∀ q ∈ ps, ¬(q.id ≠ pid ∧ q.dead = false ∧ q.x = c.1 ∧ q.y = c.2) := by
      intro q hq hcon
      have hpred := List.any_eq_false.mp hocc q hq
      simp only [Bool.and_eq_true, Bool.not_eq_true', beq_iff_eq, bne_iff_ne,
        not_and] at hpred
      exact hpred ⟨⟨hcon.1, hcon.2.1⟩, hcon.2.2.1⟩ hcon.2.2.2
    constructor
    · exact uniqueIds_map ps _
        (fun a => by by_cases h : a.id = pid <;> simp [h]) hu
    · refine List.pairwise_map.mpr ((hc.and hu).imp_of_mem ?_)
      intro a b ha hb hab
      obtain ⟨hcol, hne⟩ := hab
      by_cases hA : a.id = pid
      · have hbne : b.id ≠ pid := fun h => hne (hA.trans h.symm)
        by_cases hbd : b.dead = true
        · simp [hA, hbne, collides, aliveNonSpectator, hbd]
        · have hbd2 : b.dead = false := by
            revert hbd
            cases b.dead <;> simp
          have hxy : ¬(b.x = c.1 ∧ b.y = c.2) :=
            fun hxy => hocc2 b hb ⟨hbne, hbd2, hxy.1, hxy.2⟩
          by_cases hbx : b.x = c.1
          · have hby : (c.2 == b.y) = false :=
              beq_eq_false_iff_ne.mpr (fun h => hxy ⟨hbx, h.symm⟩)
            simp [hA, hbne, collides, sameCell, hby]
          · have hbx2 : (c.1 == b.x) = false :=
              beq_eq_false_iff_ne.mpr (fun h => hbx h.symm)
            simp [hA, hbne, collides, sameCell, hbx2]
      · by_cases hB : b.id = pid
        · by_cases had : a.dead = true
          · simp [hA, hB, collides, aliveNonSpectator, had]
          · have had2 : a.dead = false := by
              revert had
              cases a.dead <;> simp
            have haxy : ¬(a.x = c.1 ∧ a.y = c.2) :=
              fun hxy => hocc2 a ha ⟨fun h => hA h, had2, hxy.1, hxy.2⟩
            by_cases hax : a.x = c.1
            · have hay : (a.y == c.2) = false :=
                beq_eq_false_iff_ne.mpr (fun h => haxy ⟨hax, h⟩)
              simp [hA, hB, collides, sameCell, hay]
            · have hax2 : (a.x == c.1) = false :=
                beq_eq_false_iff_ne.mpr hax
              simp [hA, hB, collides, sameCell, hax2]
        · simpa [hA, hB] using hcol

theorem shootBullet_preserves (ps : List Player) (bs : List Bullet)
    (pid dir : String) (now : Int) (hu : uniqueIds ps) (hc : noCollision ps) :
    uniqueIds (shootBullet ps bs pid dir now).2.1 ∧
    noCollision (shootBullet ps bs pid dir now).2.1 := by
  rcases shootBullet_cases ps bs pid dir now with he | ⟨p, d, _, _, _, _, _, he⟩
  · rw [he]
    exact ⟨hu, hc⟩
  · rw [he]
    constructor
    · exact uniqueIds_map ps _
        (fun a => by by_cases h : a.id = pid <;> simp [h]) hu
    · exact noCollision_map ps _
        (fun a => by by_cases h : a.id = pid <;> simp [h])
        (fun a => by by_cases h : a.id = pid <;> simp [h])
        (fun a => by by_cases h : a.id = pid <;> simp [h])
        (fun a => by by_cases h : a.id = pid <;> simp [h]) hc

theorem moveBulletTick_preserves (ps : List Player) (bs : List Bullet)
    (bid : String) (now : Int) (hu : uniqueIds ps) (hc : noCollision ps) :
    uniqueIds (moveBulletTick ps bs bid now).players ∧
    noCollision (moveBulletTick ps bs bid now).players := by
  cases hfb : findBullet bs bid with
  | none =>
    have hps : (moveBulletTick ps bs bid now).players = ps := by
      simp [moveBulletTick, hfb]
    rw [hps]
    exact ⟨hu, hc⟩
  | some b =>
    cases hg : bulletGone (advanceBullet b).x (advanceBullet b).y with
    | true =>
      have hps : (moveBulletTick ps bs bid now).players = ps := by
        simp [moveBulletTick, hfb, hg]
      rw [hps]
      exact ⟨hu, hc⟩
    | false =>
      cases hh : hitScan ps (advanceBullet b) with
      | none =>
        have hps : (moveBulletTick ps bs bid now).players = ps := by
          simp [moveBulletTick, hfb, hg, hh]
        rw [hps]
        exact ⟨hu, hc⟩
      | some v =>
        have hps : (moveBulletTick ps bs bid now).players =
            (if hasPlayer (setPlayer ps v.id (markDead now)) b.ownerID then
              setPlayer (setPlayer ps v.id (markDead now)) b.ownerID creditKill
            else setPlayer ps v.id (markDead now)) := by
          simp [moveBulletTick, hfb, hg, hh]
        rw [hps]
        have h1u : uniqueIds (setPlayer ps v.id (markDead now)) :=
          uniqueIds_map ps _
            (fun a => by by_cases h : a.id = v.id <;> simp [h, markDead]) hu
        have h1c : noCollision (setPlayer ps v.id (markDead now)) :=
          noCollision_map ps _
            (fun a => by by_cases h : a.id = v.id <;> simp [h, markDead])
            (fun a => by by_cases h : a.id = v.id <;> simp [h, markDead])
            (fun a => by by_cases h : a.id = v.id <;> simp [h, markDead])
            (fun a => by by_cases h : a.id = v.id <;> simp [h, markDead]) hc
        by_cases hH : hasPlayer (setPlayer ps v.id (markDead now)) b.ownerID = true
        · rw [if_pos hH]
          constructor
          · exact uniqueIds_map _ _
              (fun a => by by_cases h : a.id = b.ownerID <;> simp [h, creditKill]) h1u
          · exact noCollision_map _ _
              (fun a => by by_cases h : a.id = b.ownerID <;> simp [h, creditKill])
              (fun a => by by_cases h : a.id = b.ownerID <;> simp [h, creditKill])
              (fun a => by by_cases h : a.id = b.ownerID <;> simp [h, creditKill])
              (fun a => by by_cases h : a.id = b.ownerID <;> simp [h, creditKill]) h1c
        · rw [if_neg hH]
          exact ⟨h1u, h1c⟩

theorem leaveGame_preserves (ps : List Player) (pid : String)
    (hu : uniqueIds ps) (hc : noCollision ps) :
    uniqueIds (leaveGame ps pid) ∧ noCollision (leaveGame ps pid) :=
  ⟨List.Pairwise.sublist (List.filter_sublist ps) hu,
   List.Pairwise.sublist (List.filter_sublist ps) hc⟩

/-- The operations that never place a player onto a cell without an occupancy
check: everything except `join` (which always spawns at the world center) and
`respawn` (whose fallback also targets the center regardless of occupancy). -/
def nonSpawningOp : Op → Bool
  | .join _ _ _ _ => false
  | .respawn _ _ => false
  | _ => true

theorem applyOp_preserves (s : GameState) (op : Op)
    (hop : nonSpawningOp op = true)
    (hu : uniqueIds s.players) (hc : noCollision s.players) :
    uniqueIds (applyOp s op).players ∧ noCollision (applyOp s op).players := by
  cases op with
  | join n c sp t => exact absurd hop (by simp [nonSpawningOp])
  | respawn pid tries => exact absurd hop (by simp [nonSpawningOp])
  | move pid dir t => exact movePlayer_preserves s.players pid dir t hu hc
  | shoot pid dir t => exact shootBullet_preserves s.players s.bullets pid dir t hu hc
  | tick bid t => exact moveBulletTick_preserves s.players s.bullets bid t hu hc
  | leave pid => exact leaveGame_preserves s.players pid hu hc

/-- C1 (amended): the occupancy invariant is preserved by every move, shoot,
bullet-tick and leave operation — starting from any state with distinct player
ids in which no two alive, non-spectator players share a cell, it still holds
after any sequence of such operations.  It is not an invariant of the full
system: a join always spawns at the world center with no occupancy check (the
counterexample), and the respawn fallback does the same. -/
theorem C1_no_collision_preserved :
    ∀ (ops : List Op) (s : GameState),
    (∀ op ∈ ops, nonSpawningOp op = true) →
    uniqueIds s.players → noCollision s.players →
    noCollision (runOps s ops).players := by
  intro ops
  induction ops with
  | nil =>
    intro s _ _ hc
    exact hc
  | cons op rest ih =>
    intro s hall hu hc
    have h1 : nonSpawningOp op = true := hall op (List.mem_cons_self _ _)
    have hpres := applyOp_preserves s op h1 hu hc
    exact ih (applyOp s op) (fun o ho => hall o (List.mem_cons_of_mem _ ho))
      hpres.1 hpres.2

/-- Witness for the C1 amended theorem at a concrete input: from a collision
free two-player state, a move keeps the invariant. -/
theorem C1_no_collision_preserved_witness :
    noCollision (runOps ⟨[samplePlayerA, samplePlayerB], []⟩
      [Op.move "p1" "up" 3]).players :=
  C1_no_collision_preserved [Op.move "p1" "up" 3] ⟨[samplePlayerA, samplePlayerB], []⟩
    (by decide) (by decide) (by decide)



/-! ## C8 — the rendered frame -/

/-- The player whose glyph ends up in cell (x,y): the last (in iteration
order) non-dead, in-bounds player standing there — the last stamp wins. -/
def lastVisiblePlayerAt (ps : List Player) (x y : Int) : Option Player :=
  ps.reverse.find? (fun p => playerVisible p && p.x == x && p.y == y)

/-- Some in-flight, in-bounds bullet occupies cell (x,y). -/
def someBulletAt (bs : List Bullet) (x y : Int) : Bool :=
  bs.any (fun b => bulletVisible b && b.x == x && b.y == y)

theorem stampPlayers_apply (ps : List Player) (g : Int → Int → String) (x y : Int) :
    stampPlayers g ps x y =
      match lastVisiblePlayerAt ps x y with
      | some p => p.character
      | none => g x y := by
  induction ps using List.reverseRecOn with
  | nil => rfl
  | append_singleton l a ih =>
    rw [stampPlayers, List.foldl_append]
    simp only [List.foldl_cons, List.foldl_nil]
    rw [lastVisiblePlayerAt, List.reverse_append]
    simp only [List.reverse_cons, List.reverse_nil, List.nil_append, List.singleton_append]
    rw [List.find?_cons]
    cases hpa : (playerVisible a && a.x == x && a.y == y) with
    | true =>
      simp only [Bool.and_eq_true, beq_iff_eq] at hpa
      obtain ⟨⟨hv, hx⟩, hy⟩ := hpa
      rw [if_pos hv, gridSet, if_pos ⟨hx.symm, hy.symm⟩]
    | false =>
      by_cases hv : playerVisible a = true
      · have hxy : (a.x == x && a.y == y) = false := by
          rw [hv] at hpa
          simpa using hpa
        have hne : ¬(x = a.x ∧ y = a.y) := by
          intro hcon
          rw [hcon.1, hcon.2] at hxy
          simp at hxy
        rw [if_pos hv, gridSet, if_neg hne]
        exact ih
      · have hv2 : ¬playerVisible a = true := hv
        rw [if_neg hv2]
        exact ih

theorem stampBullets_apply (bs : List Bullet) (g : Int → Int → String) (x y : Int) :
    stampBullets g bs x y = if someBulletAt bs x y then "*" else g x y := by
  induction bs using List.reverseRecOn with
  | nil => rfl
  | append_singleton l a ih =>
    rw [stampBullets, List.foldl_append]
    simp only [List.foldl_cons, List.foldl_nil]
    have hsb : someBulletAt (l ++ [a]) x y
        = (someBulletAt l x y || (bulletVisible a && a.x == x && a.y == y)) := by
      rw [someBulletAt, List.any_append]
      simp [someBulletAt]
    cases hpa : (bulletVisible a && a.x == x && a.y == y) with
    | true =>
      simp only [Bool.and_eq_true, beq_iff_eq] at hpa
      obtain ⟨⟨hv, hx⟩, hy⟩ := hpa
      rw [if_pos hv, gridSet, if_pos ⟨hx.symm, hy.symm⟩, hsb]
      simp [hv, hx, hy]
    | false =>
      rw [hsb, hpa, Bool.or_false]
      by_cases hv : bulletVisible a = true
      · have hxy : (a.x == x && a.y == y) = false := by
          rw [hv] at hpa
          simpa using hpa
        have hne : ¬(x = a.x ∧ y = a.y) := by
          intro hcon
          rw [hcon.1, hcon.2] at hxy
          simp at hxy
        rw [if_pos hv, gridSet, if_neg hne]
        exact ih
      · rw [if_neg hv]
        exact ih

theorem renderGrid_apply (ps : List Player) (bs : List Bullet) (x y : Int) :
    renderGrid ps bs x y =
      match lastVisiblePlayerAt ps x y with
      | some p => p.character
      | none => if someBulletAt bs x y then "*" else " " := by
  rw [renderGrid, stampPlayers_apply]
  cases h : lastVisiblePlayerAt ps x y with
  | some p => rfl
  | none => rw [stampBullets_apply]; rfl

/-- The cell contents described by the C8 claim, written from the claim's own
words: blank, or `"*"` under a bullet, or the glyph of the alive, in-bounds,
NON-SPECTATOR player occupying the cell (players override bullets). -/
def specCellC8 (ps : List Player) (bs : List Bullet) (x y : Int) : String :=
  match ps.reverse.find?
      (fun p => playerVisible p && !p.isSpectator && p.x == x && p.y == y) with
  | some p => p.character
  | none => if someBulletAt bs x y then "*" else " "

/-- C8 as stated: every stamped cell matches the claim's cell description,
which only lets non-spectator players appear on the grid. -/
def ClaimC8 : Prop :=
  ∀ (ps : List Player) (bs : List Bullet) (x y : Int),
    renderGrid ps bs x y = specCellC8 ps bs x y

/-- C8 counterexample: `Render` stamps every non-dead in-bounds player with no
spectator check, so an alive spectator at (0,0) puts its glyph `"S"` in the
frame where the claim's cell description says the cell is blank. -/
theorem C8_counterexample : ¬ ClaimC8 := by
  intro h
  exact absurd (h [sampleSpectator] [] 0 0) (by decide)

theorem foldl_append_length (l : List String) :
    ∀ acc : String, (l.foldl (fun r s => r ++ s) acc).length
      = acc.length + (l.map String.length).sum := by
  induction l with
  | nil => intro acc; simp
  | cons s l ih =>
    intro acc
    simp only [List.foldl_cons, List.map_cons, List.sum_cons]
    rw [ih, String.length_append]
    omega

theorem sum_map_length_all_one :
    ∀ (l : List String), (∀ s ∈ l, s.length = 1) → (l.map String.length).sum = l.length := by
  intro l
  induction l with
  | nil => intro _; rfl
  | cons s t ih =>
    intro h
    simp only [List.map_cons, List.sum_cons, List.length_cons]
    rw [h s (List.mem_cons_self _ _), ih (fun x hx => h x (List.mem_cons_of_mem _ hx))]
    omega

theorem join_length_all_one (l : List String) (h : ∀ s ∈ l, s.length = 1) :
    (String.join l).length = l.length := by
  have h1 : (String.join l).length = ("" : String).length + (l.map String.length).sum :=
    foldl_append_length l ""
  rw [h1, sum_map_length_all_one l h]
  simp

theorem renderGrid_cases (ps : List Player) (bs : List Bullet) (x y : Int) :
    renderGrid ps bs x y = " " ∨ renderGrid ps bs x y = "*" ∨
    ∃ p ∈ ps, renderGrid ps bs x y = p.character := by
  rw [renderGrid_apply]
  cases h : lastVisiblePlayerAt ps x y with
  | some p =>
    exact Or.inr (Or.inr ⟨p, List.mem_reverse.mp (List.mem_of_find?_eq_some h), rfl⟩)
  | none =>
    cases hb : someBulletAt bs x y with
    | true => exact Or.inr (Or.inl (by rw [if_pos rfl]))
    | false => exact Or.inl (by rw [if_neg (by simp)])

/-- C8 (amended): the frame consists of `WORLD_HEIGHT + 2` lines, the first
and last being the `+ --- +` border; line `y+1` is `"|"` + the `y`-th row's
cells + `"|"`; each cell is blank, `"*"` when an in-bounds bullet occupies it,
or the glyph of the last-stamped alive, in-bounds player on that cell — with
spectators included, since `Render` never checks `IsSpectator` (players are
stamped after bullets, so a player glyph overrides a co-located bullet); and
when every registered glyph is a single character each interior line has
`WORLD_WIDTH + 2` characters. -/
theorem C8_render_frame :
    ∀ (ps : List Player) (bs : List Bullet),
    (renderLines ps bs).length = WORLD_HEIGHT.toNat + 2 ∧
    (renderLines ps bs).head? = some borderText ∧
    (renderLines ps bs).getLast? = some borderText ∧
    (∀ y : Nat, y < WORLD_HEIGHT.toNat →
      (renderLines ps bs)[y + 1]? = some (rowText (renderGrid ps bs) (Int.ofNat y))) ∧
    (∀ x y : Int, renderGrid ps bs x y =
      match lastVisiblePlayerAt ps x y with
      | some p => p.character
      | none => if someBulletAt bs x y then "*" else " ") ∧
    ((∀ p ∈ ps, p.character.length = 1) →
      ∀ y : Int, (rowText (renderGrid ps bs) y).length = WORLD_WIDTH.toNat + 2) := by
  intro ps bs
  refine ⟨?_, rfl, ?_, ?_, fun x y => renderGrid_apply ps bs x y, ?_⟩
  · rw [renderLines]
    simp [List.length_append, List.length_cons, List.length_map,
      List.length_range, List.length_nil]
  · rw [renderLines, List.getLast?_concat]
  · intro y hy
    rw [renderLines]
    rw [List.getElem?_append, if_pos (by
      simp only [List.length_cons, List.length_map, List.length_range]
      omega)]
    rw [List.getElem?_cons_succ]
    simp [hy]
  · intro hglyph y
    rw [rowText, String.length_append, String.length_append]
    have hcells : (rowCells (renderGrid ps bs) y).length = WORLD_WIDTH.toNat := by
      rw [rowCells, join_length_all_one]
      · simp
      · intro s hs
        rcases List.mem_map.mp hs with ⟨x, _, rfl⟩
        rcases renderGrid_cases ps bs (Int.ofNat x) y with h | h | ⟨p, hp, h⟩
        · rw [h]; rfl
        · rw [h]; rfl
        · rw [h]; exact hglyph p hp
    rw [hcells]
    rfl

/-- Witness for the C8 amended theorem at a concrete input: one fighter and
one bullet, frame shape checked at the first interior line. -/
theorem C8_render_frame_witness :
    (renderLines [samplePlayerA] [sampleBullet]).length = 42 ∧
    (rowText (renderGrid [samplePlayerA] [sampleBullet]) 0).length = 152 := by
  have h := C8_render_frame [samplePlayerA] [sampleBullet]
  exact ⟨h.1, h.2.2.2.2.2 (by decide) 0⟩



/-! ## C9 — leaderboard ordering, ranks and KDR -/

theorem lbLe_iff (a b : Player) :
    lbLe a b = true ↔
      (b.kills < a.kills ∨ (a.kills = b.kills ∧ a.deaths ≤ b.deaths)) := by
  by_cases h : b.kills = a.kills <;> (simp [lbLe, lbLess, h]; try omega)

theorem lbLe_trans : ∀ (a b c : Player), lbLe a b → lbLe b c → lbLe a c := by
  intro a b c h1 h2
  rw [lbLe_iff] at h1 h2 ⊢
  omega

theorem lbLe_total : ∀ (a b : Player), lbLe a b || lbLe b a := by
  intro a b
  simp only [Bool.or_eq_true, lbLe_iff]
  omega

theorem getLeaderboard_length (ps : List Player) :
    (getLeaderboard ps).length = ps.length := by
  simp [getLeaderboard, List.enum, List.enumFrom_length]

/-- C9: the leaderboard has one row per player; rows are ordered so that any
earlier row has strictly more kills, or equal kills and no more deaths, than
any later row; the `i`-th row carries rank `i + 1`; and each row's kill/death
ratio value equals the row's kill count when its death count is zero and
kills/deaths otherwise. -/
theorem C9_leaderboard :
    ∀ ps : List Player,
    (getLeaderboard ps).length = ps.length ∧
    (∀ (i j : Nat) (hi : i < (getLeaderboard ps).length)
       (hj : j < (getLeaderboard ps).length), i < j →
      (((getLeaderboard ps).get ⟨j, hj⟩).kills < ((getLeaderboard ps).get ⟨i, hi⟩).kills ∨
        (((getLeaderboard ps).get ⟨i, hi⟩).kills = ((getLeaderboard ps).get ⟨j, hj⟩).kills ∧
         ((getLeaderboard ps).get ⟨i, hi⟩).deaths ≤ ((getLeaderboard ps).get ⟨j, hj⟩).deaths))) ∧
    (∀ (i : Nat) (hi : i < (getLeaderboard ps).length),
      ((getLeaderboard ps).get ⟨i, hi⟩).rank = i + 1) ∧
    (∀ e ∈ getLeaderboard ps,
      e.kdr = if e.deaths = 0 then (e.kills : ℚ) else (e.kills : ℚ) / (e.deaths : ℚ)) := by
  intro ps
  refine ⟨getLeaderboard_length ps, ?_, ?_, ?_⟩
  · intro i j hi hj hij
    have hs := List.sorted_mergeSort lbLe_trans lbLe_total ps
    rw [List.pairwise_iff_getElem] at hs
    have hi2 : i < (ps.mergeSort lbLe).length := by
      rw [List.length_mergeSort, ← getLeaderboard_length ps]
      exact hi
    have hj2 : j < (ps.mergeSort lbLe).length := by
      rw [List.length_mergeSort, ← getLeaderboard_length ps]
      exact hj
    have hle := hs i j hi2 hj2 hij
    rw [lbLe_iff] at hle
    simp only [getLeaderboard, List.get_eq_getElem, List.getElem_map, List.enum,
      List.getElem_enumFrom, Nat.zero_add]
    exact hle
  · intro i hi
    simp only [getLeaderboard, List.get_eq_getElem, List.getElem_map, List.enum,
      List.getElem_enumFrom, Nat.zero_add]
  · intro e he
    simp only [getLeaderboard, List.mem_map] at he
    rcases he with ⟨ip, _, rfl⟩
    simp only [kdrOf]
    by_cases h : ip.2.deaths = 0
    · simp [h]
    · have h2 : ip.2.deaths > 0 := Nat.pos_of_ne_zero h
      simp [h, h2]

/-- Witness for C9 at a concrete input: with players A (0 kills) and B
(2 kills, 1 death), the first row has rank 1 and the pairwise ordering holds
between rows 0 and 1. -/
theorem C9_leaderboard_witness :
    ((getLeaderboard [samplePlayerA, samplePlayerB]).get
        ⟨0, by rw [getLeaderboard_length]; decide⟩).rank = 1 ∧
    (((getLeaderboard [samplePlayerA, samplePlayerB]).get
        ⟨1, by rw [getLeaderboard_length]; decide⟩).kills <
      ((getLeaderboard [samplePlayerA, samplePlayerB]).get
        ⟨0, by rw [getLeaderboard_length]; decide⟩).kills ∨
     (((getLeaderboard [samplePlayerA, samplePlayerB]).get
        ⟨0, by rw [getLeaderboard_length]; decide⟩).kills =
      ((getLeaderboard [samplePlayerA, samplePlayerB]).get
        ⟨1, by rw [getLeaderboard_length]; decide⟩).kills ∧
      ((getLeaderboard [samplePlayerA, samplePlayerB]).get
        ⟨0, by rw [getLeaderboard_length]; decide⟩).deaths ≤
      ((getLeaderboard [samplePlayerA, samplePlayerB]).get
        ⟨1, by rw [getLeaderboard_length]; decide⟩).deaths)) := by
  have h := C9_leaderboard [samplePlayerA, samplePlayerB]
  exact ⟨h.2.2.1 0 (by rw [getLeaderboard_length]; decide),
    h.2.1 0 1 (by rw [getLeaderboard_length]; decide)
      (by rw [getLeaderboard_length]; decide) (by decide)⟩


end Gomp
